import Mathlib

/-!
# Verification of the Snake game core (`the_snake.py`)

A shallow embedding of the movement / collision / growth state update of the
Snake game, together with proofs of the behavioural laws stated in the spec.

Python machine integers are modelled by `Int` (Python ints are unbounded, and
`%` on a positive modulus agrees with `Int.emod`).  The randomness source
(`random.randint`, `random.choice`) is modelled by an oracle: a list of
natural numbers consumed one value at a time; every property quantifies over
all oracle contents.
-/

set_option autoImplicit false

namespace TheSnake

/-! ### Constants (`the_snake.py`, top of file) -/

def SCREEN_WIDTH : Int := 640
def SCREEN_HEIGHT : Int := 480
def GRID_SIZE : Int := 20

def BOARD_BACKGROUND_COLOR : Nat × Nat × Nat := (0, 0, 0)
def SNAKE_COLOR : Nat × Nat × Nat := (0, 255, 0)
def APPLE_COLOR : Nat × Nat × Nat := (255, 0, 0)

def UP : Int × Int := (0, -1)
def DOWN : Int × Int := (0, 1)
def LEFT : Int × Int := (-1, 0)
def RIGHT : Int × Int := (1, 0)

/-- The randomness oracle: a stream of draws, consumed front-first. -/
abbrev Rng : Type := List Nat

/-- Model of `random.randint(a, b)`: a value in `[a, b]`, taken from the oracle. -/
def randint (a b : Int) (r : Rng) : Int × Rng :=
  (a + ((List.headD r 0 : Nat) : Int) % (b - a + 1), List.tail r)

/-- Model of `random.choice([UP, DOWN, LEFT, RIGHT])`, taken from the oracle. -/
def choice4 (r : Rng) : (Int × Int) × Rng :=
  ([UP, DOWN, LEFT, RIGHT].getD (List.headD r 0 % 4) UP, List.tail r)

/-! ### `Apple` -/

structure Apple where
  position : Int × Int
  body_color : Nat × Nat × Nat
deriving DecidableEq

/-- Embeds `Apple.randomize_position` (lines 88–95). -/
def Apple.randomize_position (a : Apple) (r : Rng) : Apple × Rng :=
  let xc := (randint 0 (SCREEN_WIDTH / GRID_SIZE - 1) r).1
  let r1 := (randint 0 (SCREEN_WIDTH / GRID_SIZE - 1) r).2
  let yc := (randint 0 (SCREEN_HEIGHT / GRID_SIZE - 1) r1).1
  let r2 := (randint 0 (SCREEN_HEIGHT / GRID_SIZE - 1) r1).2
  ({ a with position := (xc * GRID_SIZE, yc * GRID_SIZE) }, r2)

/-- Embeds `Apple.__init__` (lines 79–86): centred `GameObject` position, apple
colour, then an immediate `randomize_position`. -/
def Apple.init (r : Rng) : Apple × Rng :=
  Apple.randomize_position
    { position := (SCREEN_WIDTH / 2, SCREEN_HEIGHT / 2), body_color := APPLE_COLOR } r

/-! ### `Snake` -/

structure Snake where
  position : Int × Int
  body_color : Nat × Nat × Nat
  length : Nat
  positions : List (Int × Int)
  direction : Int × Int
  next_direction : Option (Int × Int)
  last : Option (Int × Int)
deriving DecidableEq

/-- Embeds `Snake.__init__` (lines 112–128). -/
def Snake.init : Snake :=
  { position := (SCREEN_WIDTH / 2, SCREEN_HEIGHT / 2)
    body_color := SNAKE_COLOR
    length := 1
    positions := [(SCREEN_WIDTH / 2, SCREEN_HEIGHT / 2)]
    direction := RIGHT
    next_direction := none
    last := none }

/-- Embeds `Snake.get_head_position` (lines 130–136): `positions[0]`.  The body list
is never empty in any reachable state, so the default value is irrelevant. -/
def Snake.get_head_position (s : Snake) : Int × Int :=
  s.positions.headD (0, 0)

/-- Embeds `Snake.update_direction` (lines 138–156): commit the pending direction
unless it is the exact 180° reversal of the current one; always clear it. -/
def Snake.update_direction (s : Snake) : Snake :=
  match s.next_direction with
  | none => s
  | some nd =>
    if (s.direction.1 + nd.1, s.direction.2 + nd.2) ≠ ((0 : Int), (0 : Int)) then
      { s with direction := nd, next_direction := none }
    else
      { s with next_direction := none }

/-- Embeds `Snake.reset` (lines 206–219).  Note: `self.last` is *not* touched. -/
def Snake.reset (s : Snake) (r : Rng) : Snake × Rng :=
  let center : Int × Int := (SCREEN_WIDTH / 2, SCREEN_HEIGHT / 2)
  ({ s with length := 1, positions := [center], position := center,
            direction := (choice4 r).1, next_direction := none }, (choice4 r).2)

/-- One toroidal step: `(pos + direction * GRID_SIZE) mod board` per axis. -/
def wrapAdd (p d : Int × Int) : Int × Int :=
  ((p.1 + d.1 * GRID_SIZE) % SCREEN_WIDTH, (p.2 + d.2 * GRID_SIZE) % SCREEN_HEIGHT)

/-- The `new_head` computed at the start of `Snake.move` (lines 164–170). -/
def Snake.new_head (s : Snake) : Int × Int :=
  wrapAdd s.get_head_position s.direction

/-- The self-collision test of `Snake.move` (line 175):
`new_head in self.positions[2:]`. -/
def Snake.collides (s : Snake) : Prop :=
  s.new_head ∈ s.positions.drop 2

instance (s : Snake) : Decidable s.collides :=
  inferInstanceAs (Decidable (s.new_head ∈ s.positions.drop 2))

/-- Embeds `Snake.move` (lines 158–186): on collision, reset and return; otherwise
insert the new head at the front and, when the body exceeds the target
length, pop (and remember) the tail. -/
def Snake.move (s : Snake) (r : Rng) : Snake × Rng :=
  if s.collides then
    s.reset r
  else if (s.new_head :: s.positions).length > s.length then
    ({ s with positions := (s.new_head :: s.positions).dropLast,
              last := (s.new_head :: s.positions).getLast? }, r)
  else
    ({ s with positions := s.new_head :: s.positions }, r)

/-! ### The driver loop (`main`, lines 237–252) -/

/-- The four arrow keys recognised by `handle_keys`. -/
inductive Key where
  | up
  | down
  | left
  | right
deriving DecidableEq

def Key.dir : Key → Int × Int
  | .up => UP
  | .down => DOWN
  | .left => LEFT
  | .right => RIGHT

/-- Embeds `handle_keys` (lines 21–41): at most one direction request per tick is
kept; a key press overwrites `next_direction`. -/
def handle_keys (s : Snake) : Option Key → Snake
  | none => s
  | some k => { s with next_direction := some k.dir }

structure GameState where
  snake : Snake
  apple : Apple
deriving DecidableEq

/-- Steps 1–2 of a driver iteration: `handle_keys` then `update_direction`
(lines 239–242). -/
def tickCommit (g : GameState) (k : Option Key) : Snake :=
  Snake.update_direction (handle_keys g.snake k)

/-- Steps 1–3 of a driver iteration: `handle_keys`, `update_direction`,
`move` (lines 239–245). -/
def tickMove (g : GameState) (k : Option Key) (r : Rng) : Snake × Rng :=
  (tickCommit g k).move r

/-- Whether the driver's apple check (line 248) fires this tick: the head
after `move` equals the apple's position. -/
def tickAte (g : GameState) (k : Option Key) (r : Rng) : Prop :=
  (tickMove g k r).1.get_head_position = g.apple.position

instance (g : GameState) (k : Option Key) (r : Rng) : Decidable (tickAte g k r) :=
  inferInstanceAs (Decidable (_ = _))

/-- Whether `move` detects a self-collision (and resets) this tick. -/
def tickCollided (g : GameState) (k : Option Key) (_r : Rng) : Prop :=
  (tickCommit g k).collides

instance (g : GameState) (k : Option Key) (r : Rng) : Decidable (tickCollided g k r) :=
  inferInstanceAs (Decidable (Snake.collides _))

/-- One full driver iteration (lines 237–252): keys, direction commit, move,
then the apple check — on a hit, the target length grows by 1 and the apple
is repositioned. -/
def tick (g : GameState) (k : Option Key) (r : Rng) : GameState × Rng :=
  if (tickMove g k r).1.get_head_position = g.apple.position then
    ({ snake := { (tickMove g k r).1 with length := (tickMove g k r).1.length + 1 },
       apple := (Apple.randomize_position g.apple (tickMove g k r).2).1 },
     (Apple.randomize_position g.apple (tickMove g k r).2).2)
  else
    ({ snake := (tickMove g k r).1, apple := g.apple }, (tickMove g k r).2)

/-- Game start (lines 234–235): a fresh snake and a randomly placed apple. -/
def GameState.init (r : Rng) : GameState × Rng :=
  ({ snake := Snake.init, apple := (Apple.init r).1 }, (Apple.init r).2)

/-- States reachable through the driver loop, for arbitrary key input and
arbitrary randomness. -/
inductive Reachable : GameState → Prop where
  | start (r : Rng) : Reachable (GameState.init r).1
  | step (g : GameState) (k : Option Key) (r : Rng) :
      Reachable g → Reachable (tick g k r).1

/-! ### Basic facts about the embedding -/

/-- A position with both pixel coordinates inside the board. -/
def inRange (p : Int × Int) : Prop :=
  0 ≤ p.1 ∧ p.1 < SCREEN_WIDTH ∧ 0 ≤ p.2 ∧ p.2 < SCREEN_HEIGHT

instance (p : Int × Int) : Decidable (inRange p) :=
  inferInstanceAs (Decidable (_ ∧ _))

theorem choice4_mem (r : Rng) : (choice4 r).1 ∈ [UP, DOWN, LEFT, RIGHT] := by
  show [UP, DOWN, LEFT, RIGHT].getD (List.headD r 0 % 4) UP ∈ [UP, DOWN, LEFT, RIGHT]
  have h4 : List.headD r 0 % 4 = 0 ∨ List.headD r 0 % 4 = 1 ∨
      List.headD r 0 % 4 = 2 ∨ List.headD r 0 % 4 = 3 := by omega
  rcases h4 with h | h | h | h <;> rw [h] <;> decide

theorem wrapAdd_inRange (p d : Int × Int) : inRange (wrapAdd p d) := by
  simp only [inRange, wrapAdd, SCREEN_WIDTH, SCREEN_HEIGHT, GRID_SIZE]
  omega

theorem cardinal_sum_self_ne (d : Int × Int) (hd : d ∈ [UP, DOWN, LEFT, RIGHT]) :
    (d.1 + d.1, d.2 + d.2) ≠ ((0 : Int), (0 : Int)) := by
  simp only [List.mem_cons, List.not_mem_nil, or_false] at hd
  rcases hd with h | h | h | h <;> subst h <;> decide

/-- One wrapped cardinal step never stays in place: the offset `±GRID_SIZE`
is not `0` modulo either board dimension. -/
theorem wrapAdd_ne_self (p d : Int × Int) (hd : d ∈ [UP, DOWN, LEFT, RIGHT]) :
    wrapAdd p d ≠ p := by
  obtain ⟨x, y⟩ := p
  simp only [List.mem_cons, List.not_mem_nil, or_false] at hd
  rcases hd with h | h | h | h <;> subst h <;> intro hEq <;>
    simp only [wrapAdd, UP, DOWN, LEFT, RIGHT, SCREEN_WIDTH, SCREEN_HEIGHT, GRID_SIZE,
      Prod.mk.injEq] at hEq <;>
    omega

/-- Two wrapped cardinal steps return to the start only when the second step
is the exact reversal of the first. -/
theorem wrapAdd_wrapAdd_ne (p d d' : Int × Int)
    (hd : d ∈ [UP, DOWN, LEFT, RIGHT]) (hd' : d' ∈ [UP, DOWN, LEFT, RIGHT])
    (hsum : (d.1 + d'.1, d.2 + d'.2) ≠ ((0 : Int), (0 : Int)))
    (hp : inRange p) : wrapAdd (wrapAdd p d) d' ≠ p := by
  obtain ⟨x, y⟩ := p
  simp only [inRange, SCREEN_WIDTH, SCREEN_HEIGHT] at hp
  simp only [List.mem_cons, List.not_mem_nil, or_false] at hd hd'
  rcases hd with h | h | h | h <;> rcases hd' with h2 | h2 | h2 | h2 <;>
    subst h <;> subst h2 <;> intro hEq <;>
    simp only [wrapAdd, UP, DOWN, LEFT, RIGHT, SCREEN_WIDTH, SCREEN_HEIGHT, GRID_SIZE,
      Prod.mk.injEq, ne_eq] at hEq hsum <;>
    omega

/-! ### The tick-boundary invariant -/

/-- Properties holding of the snake at every tick boundary: the direction is
a cardinal vector, the body is nonempty and on the board, no direction
request is pending, the head is one wrapped step from the neck (when a neck
exists), and the body length is the target length or one below it. -/
structure SnakeInv (s : Snake) : Prop where
  dir_card : s.direction ∈ [UP, DOWN, LEFT, RIGHT]
  ne_nil : s.positions ≠ []
  ranged : ∀ p ∈ s.positions, inRange p
  next_none : s.next_direction = none
  neck : 2 ≤ s.positions.length →
    s.positions.getD 0 (0, 0) = wrapAdd (s.positions.getD 1 (0, 0)) s.direction
  len_law : s.positions.length = s.length ∨ s.positions.length + 1 = s.length

theorem snakeInv_init : SnakeInv Snake.init := by
  constructor <;> decide

/-- Effect of steps 1–2 of a tick (`handle_keys` + `update_direction`) on a
snake with no pending request: every field but the direction is unchanged,
and the direction either stays or moves to a cardinal vector that is not the
exact reversal of the old one. -/
theorem tickCommit_spec (g : GameState) (k : Option Key)
    (h : g.snake.next_direction = none) :
    (tickCommit g k).positions = g.snake.positions ∧
    (tickCommit g k).length = g.snake.length ∧
    (tickCommit g k).last = g.snake.last ∧
    (tickCommit g k).position = g.snake.position ∧
    (tickCommit g k).body_color = g.snake.body_color ∧
    (tickCommit g k).next_direction = none ∧
    ((tickCommit g k).direction = g.snake.direction ∨
      ((tickCommit g k).direction ∈ [UP, DOWN, LEFT, RIGHT] ∧
        (g.snake.direction.1 + (tickCommit g k).direction.1,
          g.snake.direction.2 + (tickCommit g k).direction.2) ≠ ((0 : Int), (0 : Int)))) := by
  cases k with
  | none =>
    have hid : tickCommit g none = g.snake := by
      unfold tickCommit handle_keys Snake.update_direction
      rw [h]
    rw [hid]
    exact ⟨rfl, rfl, rfl, rfl, rfl, h, Or.inl rfl⟩
  | some kk =>
    have hsome : tickCommit g (some kk) =
        if (g.snake.direction.1 + (Key.dir kk).1, g.snake.direction.2 + (Key.dir kk).2)
            ≠ ((0 : Int), (0 : Int)) then
          { g.snake with direction := Key.dir kk, next_direction := none }
        else { g.snake with next_direction := none } := rfl
    rw [hsome]
    by_cases hturn :
        (g.snake.direction.1 + (Key.dir kk).1, g.snake.direction.2 + (Key.dir kk).2)
          ≠ ((0 : Int), (0 : Int))
    · rw [if_pos hturn]
      refine ⟨rfl, rfl, rfl, rfl, rfl, rfl, Or.inr ⟨?_, hturn⟩⟩
      cases kk <;> simp [Key.dir]
    · rw [if_neg hturn]
      exact ⟨rfl, rfl, rfl, rfl, rfl, rfl, Or.inl rfl⟩

theorem move_fst_collides (s : Snake) (r : Rng) (hc : s.collides) :
    (s.move r).1 = { s with
      length := 1
      positions := [(SCREEN_WIDTH / 2, SCREEN_HEIGHT / 2)]
      position := (SCREEN_WIDTH / 2, SCREEN_HEIGHT / 2)
      direction := (choice4 r).1
      next_direction := none } := by
  unfold Snake.move
  rw [if_pos hc]
  rfl

theorem move_fst_pop (s : Snake) (r : Rng) (hc : ¬ s.collides)
    (hpop : (s.new_head :: s.positions).length > s.length) :
    (s.move r).1 = { s with
      positions := (s.new_head :: s.positions).dropLast
      last := (s.new_head :: s.positions).getLast? } := by
  unfold Snake.move
  rw [if_neg hc, if_pos hpop]

theorem move_fst_nopop (s : Snake) (r : Rng) (hc : ¬ s.collides)
    (hpop : ¬ (s.new_head :: s.positions).length > s.length) :
    (s.move r).1 = { s with positions := s.new_head :: s.positions } := by
  unfold Snake.move
  rw [if_neg hc, if_neg hpop]

/-- Lemma: `move` re-establishes the boundary invariant, and moreover leaves the
body length equal to the target length (growth is absorbed, a pop trims the
extra cell, and a reset collapses both to `1`). -/
theorem move_inv (s : Snake) (r : Rng)
    (hd : s.direction ∈ [UP, DOWN, LEFT, RIGHT])
    (hne : s.positions ≠ [])
    (hr : ∀ p ∈ s.positions, inRange p)
    (hnx : s.next_direction = none)
    (hlen : s.positions.length = s.length ∨ s.positions.length + 1 = s.length) :
    SnakeInv (s.move r).1 ∧ (s.move r).1.positions.length = (s.move r).1.length := by
  by_cases hc : s.collides
  · rw [move_fst_collides s r hc]
    refine ⟨⟨choice4_mem r, by simp, ?_, rfl, ?_, Or.inl rfl⟩, rfl⟩
    · intro q hq
      simp only [List.mem_singleton] at hq
      subst hq
      decide
    · intro h2
      simp at h2
  · obtain ⟨p, ps, hps⟩ : ∃ p ps, s.positions = p :: ps := by
      cases hy : s.positions with
      | nil => exact absurd hy hne
      | cons a t => exact ⟨a, t, rfl⟩
    have hnh : s.new_head = wrapAdd p s.direction := by
      unfold Snake.new_head Snake.get_head_position
      rw [hps, List.headD_cons]
    by_cases hpop : (s.new_head :: s.positions).length > s.length
    · have heq : s.positions.length = s.length := by
        rcases hlen with h | h
        · exact h
        · rw [List.length_cons] at hpop
          omega
      rw [move_fst_pop s r hc hpop]
      refine ⟨⟨hd, ?_, ?_, hnx, ?_, ?_⟩, ?_⟩
      · rw [hps, List.dropLast_cons₂]
        simp
      · intro q hq
        rcases List.mem_cons.mp ((List.dropLast_sublist _).mem hq) with h | h
        · rw [h, hnh]
          exact wrapAdd_inRange p s.direction
        · exact hr q h
      · intro h2
        rw [hps] at h2 ⊢
        cases ps with
        | nil => simp at h2
        | cons q qs =>
          rw [List.dropLast_cons₂, List.dropLast_cons₂]
          exact hnh
      · left
        show (s.new_head :: s.positions).dropLast.length = s.length
        rw [List.length_dropLast, List.length_cons]
        omega
      · show (s.new_head :: s.positions).dropLast.length = s.length
        rw [List.length_dropLast, List.length_cons]
        omega
    · have heq : s.positions.length + 1 = s.length := by
        rcases hlen with h | h
        · rw [List.length_cons] at hpop
          omega
        · exact h
      rw [move_fst_nopop s r hc hpop]
      refine ⟨⟨hd, by simp, ?_, hnx, ?_, ?_⟩, ?_⟩
      · intro q hq
        rcases List.mem_cons.mp hq with h | h
        · rw [h, hnh]
          exact wrapAdd_inRange p s.direction
        · exact hr q h
      · intro _
        rw [hps]
        exact hnh
      · left
        show (s.new_head :: s.positions).length = s.length
        rw [List.length_cons]
        omega
      · show (s.new_head :: s.positions).length = s.length
        rw [List.length_cons]
        omega

/-- The committed direction of a tick is a cardinal vector. -/
theorem tickCommit_dir_card (g : GameState) (k : Option Key) (hg : SnakeInv g.snake) :
    (tickCommit g k).direction ∈ [UP, DOWN, LEFT, RIGHT] := by
  obtain ⟨_, _, _, _, _, _, hdir⟩ := tickCommit_spec g k hg.next_none
  rcases hdir with h | ⟨h, _⟩
  · rw [h]
    exact hg.dir_card
  · exact h

/-- After the `move` of a tick — before the apple check — the body length
always equals the target length. -/
theorem tickMove_len (g : GameState) (k : Option Key) (r : Rng) (hg : SnakeInv g.snake) :
    (tickMove g k r).1.positions.length = (tickMove g k r).1.length := by
  obtain ⟨hpos, hlen, _, _, _, hnxt, _⟩ := tickCommit_spec g k hg.next_none
  exact (move_inv (tickCommit g k) r (tickCommit_dir_card g k hg)
    (by rw [hpos]; exact hg.ne_nil) (by rw [hpos]; exact hg.ranged) hnxt
    (by rw [hpos, hlen]; exact hg.len_law)).2

/-- The boundary invariant is preserved by a full driver tick. -/
theorem inv_tick (g : GameState) (k : Option Key) (r : Rng) (hg : SnakeInv g.snake) :
    SnakeInv (tick g k r).1.snake := by
  obtain ⟨hpos, hlen, _, _, _, hnxt, _⟩ := tickCommit_spec g k hg.next_none
  have hmv := move_inv (tickCommit g k) r (tickCommit_dir_card g k hg)
    (by rw [hpos]; exact hg.ne_nil) (by rw [hpos]; exact hg.ranged) hnxt
    (by rw [hpos, hlen]; exact hg.len_law)
  unfold tick
  by_cases hate : (tickMove g k r).1.get_head_position = g.apple.position
  · rw [if_pos hate]
    obtain ⟨hi, hl⟩ := hmv
    have hl' : (tickMove g k r).1.positions.length = (tickMove g k r).1.length := hl
    refine ⟨hi.dir_card, hi.ne_nil, hi.ranged, hi.next_none, hi.neck, Or.inr ?_⟩
    show (tickMove g k r).1.positions.length + 1 = (tickMove g k r).1.length + 1
    omega
  · rw [if_neg hate]
    exact hmv.1

/-- Every reachable state satisfies the boundary invariant. -/
theorem reachable_inv (g : GameState) (hg : Reachable g) : SnakeInv g.snake := by
  induction hg with
  | start r => exact snakeInv_init
  | step g k r _ ih => exact inv_tick g k r ih

/-- A tick that does not consume an apple ends with body length equal to the
target length (also in reset ticks). -/
theorem tick_len_of_not_ate (g : GameState) (k : Option Key) (r : Rng)
    (hg : SnakeInv g.snake) (h : ¬ tickAte g k r) :
    (tick g k r).1.snake.positions.length = (tick g k r).1.snake.length := by
  have h' : ¬ (tickMove g k r).1.get_head_position = g.apple.position := h
  unfold tick
  rw [if_neg h']
  exact tickMove_len g k r hg

/-- A tick that consumes an apple ends with body length one below the target
length. -/
theorem tick_len_of_ate (g : GameState) (k : Option Key) (r : Rng)
    (hg : SnakeInv g.snake) (h : tickAte g k r) :
    (tick g k r).1.snake.positions.length + 1 = (tick g k r).1.snake.length := by
  have h' : (tickMove g k r).1.get_head_position = g.apple.position := h
  unfold tick
  rw [if_pos h']
  have hl := tickMove_len g k r hg
  show (tickMove g k r).1.positions.length + 1 = (tickMove g k r).1.length + 1
  omega

/-- A non-colliding tick from a state whose body is one cell short of the
target grows the body by exactly one cell. -/
theorem tick_len_growth (g : GameState) (k : Option Key) (r : Rng)
    (hg : SnakeInv g.snake)
    (hshort : g.snake.positions.length + 1 = g.snake.length)
    (hnc : ¬ tickCollided g k r) :
    (tick g k r).1.snake.positions.length = g.snake.positions.length + 1 := by
  obtain ⟨hpos, hlen, _, _, _, _, _⟩ := tickCommit_spec g k hg.next_none
  have hpop : ¬ ((tickCommit g k).new_head :: (tickCommit g k).positions).length >
      (tickCommit g k).length := by
    rw [List.length_cons, hpos, hlen]
    omega
  have hmv := move_fst_nopop (tickCommit g k) r hnc hpop
  have hlen3 : (tickMove g k r).1.positions.length = g.snake.positions.length + 1 := by
    show ((tickCommit g k).move r).1.positions.length = _
    rw [hmv]
    show ((tickCommit g k).new_head :: (tickCommit g k).positions).length = _
    rw [List.length_cons, hpos]
  unfold tick
  by_cases hate : (tickMove g k r).1.get_head_position = g.apple.position
  · rw [if_pos hate]
    exact hlen3
  · rw [if_neg hate]
    exact hlen3

/-! ### Further helper lemmas -/

/-- Lemma: when `move` does not detect a collision, the resulting head is the
wrapped sum of the old head and the direction, on each axis independently. -/
theorem move_head_of_not_collides (s : Snake) (r : Rng) (hne : s.positions ≠ [])
    (hc : ¬ s.collides) :
    (s.move r).1.get_head_position =
      ((s.get_head_position.1 + s.direction.1 * GRID_SIZE) % SCREEN_WIDTH,
       (s.get_head_position.2 + s.direction.2 * GRID_SIZE) % SCREEN_HEIGHT) := by
  obtain ⟨p, ps, hps⟩ : ∃ p ps, s.positions = p :: ps := by
    cases hy : s.positions with
    | nil => exact absurd hy hne
    | cons a t => exact ⟨a, t, rfl⟩
  by_cases hpop : (s.new_head :: s.positions).length > s.length
  · rw [move_fst_pop s r hc hpop]
    show ((s.new_head :: s.positions).dropLast).headD (0, 0) = _
    rw [hps, List.dropLast_cons₂, List.headD_cons]
    rfl
  · rw [move_fst_nopop s r hc hpop]
    show ((s.new_head :: s.positions)).headD (0, 0) = _
    rw [List.headD_cons]
    rfl

/-- Lemma: every position produced by `randomize_position` is grid-aligned
and strictly inside the board, whatever the randomness source returns. -/
theorem randomize_position_spec (a : Apple) (r : Rng) :
    (a.randomize_position r).1.position.1 % GRID_SIZE = 0 ∧
    (a.randomize_position r).1.position.2 % GRID_SIZE = 0 ∧
    0 ≤ (a.randomize_position r).1.position.1 ∧
    (a.randomize_position r).1.position.1 < SCREEN_WIDTH ∧
    0 ≤ (a.randomize_position r).1.position.2 ∧
    (a.randomize_position r).1.position.2 < SCREEN_HEIGHT := by
  have h1 : (a.randomize_position r).1.position =
      ((randint 0 (SCREEN_WIDTH / GRID_SIZE - 1) r).1 * GRID_SIZE,
       (randint 0 (SCREEN_HEIGHT / GRID_SIZE - 1)
          (randint 0 (SCREEN_WIDTH / GRID_SIZE - 1) r).2).1 * GRID_SIZE) := rfl
  rw [h1]
  simp only [randint, SCREEN_WIDTH, SCREEN_HEIGHT, GRID_SIZE]
  omega

/-! ### A concrete reachable play, used as witness and counterexample data

Oracle values are chosen so that the apple appears at `(340, 240)`, then
`(360, 240)`, then `(360, 220)`; the snake (starting centred at `(320, 240)`
heading right) eats all three, reaching 4 body cells, and then curls into a
2×2 square.  The two branches differ only in where the fourth apple lands. -/

def trace0 : GameState := (GameState.init [17, 12]).1
def trace1 : GameState := (tick trace0 none [18, 12]).1
def trace2 : GameState := (tick trace1 none [18, 11]).1
def trace3a : GameState := (tick trace2 (some Key.up) [17, 11]).1
def trace4a : GameState := (tick trace3a (some Key.left) [0, 0]).1
def trace3b : GameState := (tick trace2 (some Key.up) [16, 12]).1
def trace4b : GameState := (tick trace3b (some Key.left) [0, 0]).1

/-- A second start state whose apple, at `(0, 0)`, is out of the snake's way. -/
def traceX : GameState := (GameState.init [0, 0]).1

theorem trace0_reachable : Reachable trace0 := Reachable.start [17, 12]

theorem trace1_reachable : Reachable trace1 :=
  Reachable.step trace0 none [18, 12] trace0_reachable

theorem trace2_reachable : Reachable trace2 :=
  Reachable.step trace1 none [18, 11] trace1_reachable

theorem trace3a_reachable : Reachable trace3a :=
  Reachable.step trace2 (some Key.up) [17, 11] trace2_reachable

theorem trace4a_reachable : Reachable trace4a :=
  Reachable.step trace3a (some Key.left) [0, 0] trace3a_reachable

theorem trace3b_reachable : Reachable trace3b :=
  Reachable.step trace2 (some Key.up) [16, 12] trace2_reachable

theorem trace4b_reachable : Reachable trace4b :=
  Reachable.step trace3b (some Key.left) [0, 0] trace3b_reachable

theorem traceX_reachable : Reachable traceX := Reachable.start [0, 0]

/-! ### The claims -/

/-- A colliding snake (a 2×2 curl, heading down into its own tail end) whose
`last` bookkeeping field holds a stale erase position. -/
def snakeC1 : Snake :=
  { position := (320, 240)
    body_color := SNAKE_COLOR
    length := 4
    positions := [(340, 220), (360, 220), (360, 240), (340, 240)]
    direction := DOWN
    next_direction := none
    last := some (0, 0) }

/-- Claim C1, counterexample: `snakeC1` self-collides, yet after `move` the
`last` field still holds its stale pre-collision value `some (0, 0)` instead
of the freshly-initialized value `none` — so the reset is not a full state
reinitialization of every field. -/
theorem C1_counterexample :
    snakeC1.collides ∧ (snakeC1.move []).1.last ≠ Snake.init.last := by
  exact ⟨by decide, by decide⟩

/-- Claim C1 (amended): when the newly computed head lies in `positions[2:]`,
`move` performs the reset with no head insertion: target length 1, body a
single cell at the board center, direction one of the four cardinals,
pending direction cleared — but the `last` bookkeeping field is *not*
reinitialized: it keeps its pre-collision value (`body_color` too is
untouched). -/
theorem C1_reset_state (s : Snake) (r : Rng) (hc : s.collides) :
    (s.move r).1.length = 1 ∧
    (s.move r).1.positions = [(SCREEN_WIDTH / 2, SCREEN_HEIGHT / 2)] ∧
    (s.move r).1.position = (SCREEN_WIDTH / 2, SCREEN_HEIGHT / 2) ∧
    (s.move r).1.direction ∈ [UP, DOWN, LEFT, RIGHT] ∧
    (s.move r).1.next_direction = none ∧
    (s.move r).1.last = s.last ∧
    (s.move r).1.body_color = s.body_color := by
  rw [move_fst_collides s r hc]
  exact ⟨rfl, rfl, rfl, choice4_mem r, rfl, rfl, rfl⟩

/-- Witness for C1 (amended), at the concrete colliding snake `snakeC1`. -/
theorem C1_reset_state_witness :
    (snakeC1.move []).1.length = 1 ∧
    (snakeC1.move []).1.positions = [(SCREEN_WIDTH / 2, SCREEN_HEIGHT / 2)] ∧
    (snakeC1.move []).1.position = (SCREEN_WIDTH / 2, SCREEN_HEIGHT / 2) ∧
    (snakeC1.move []).1.direction ∈ [UP, DOWN, LEFT, RIGHT] ∧
    (snakeC1.move []).1.next_direction = none ∧
    (snakeC1.move []).1.last = snakeC1.last ∧
    (snakeC1.move []).1.body_color = snakeC1.body_color :=
  C1_reset_state snakeC1 [] (by decide)

/-- Claim C2: in any reachable state, a tick whose `move` completes without
detecting a collision leaves the head at
`((old_head + direction * GRID_SIZE) mod board)`, independently per axis,
where `old_head` and `direction` are the head and the committed direction at
the time `move` runs. -/
theorem C2_wraparound (g : GameState) (hg : Reachable g) (k : Option Key) (r : Rng)
    (hc : ¬ tickCollided g k r) :
    (tickMove g k r).1.get_head_position =
      (((tickCommit g k).get_head_position.1 +
          (tickCommit g k).direction.1 * GRID_SIZE) % SCREEN_WIDTH,
       ((tickCommit g k).get_head_position.2 +
          (tickCommit g k).direction.2 * GRID_SIZE) % SCREEN_HEIGHT) := by
  have hinv := reachable_inv g hg
  obtain ⟨hpos, _, _, _, _, _, _⟩ := tickCommit_spec g k hinv.next_none
  have hne : (tickCommit g k).positions ≠ [] := by
    rw [hpos]
    exact hinv.ne_nil
  exact move_head_of_not_collides (tickCommit g k) r hne hc

/-- Witness for C2, at the initial state `traceX` with no key pressed. -/
theorem C2_wraparound_witness :
    (tickMove traceX none []).1.get_head_position =
      (((tickCommit traceX none).get_head_position.1 +
          (tickCommit traceX none).direction.1 * GRID_SIZE) % SCREEN_WIDTH,
       ((tickCommit traceX none).get_head_position.2 +
          (tickCommit traceX none).direction.2 * GRID_SIZE) % SCREEN_HEIGHT) :=
  C2_wraparound traceX traceX_reachable none [] (by decide)

/-- Claim C3: with a pending request `d`, `update_direction` keeps the old
direction when `d` is the exact opposite (component-wise sum zero), commits
`d` otherwise, and clears the pending request in both cases. -/
theorem C3_update_direction (s : Snake) (d : Int × Int) (h : s.next_direction = some d) :
    ((s.direction.1 + d.1, s.direction.2 + d.2) = ((0 : Int), (0 : Int)) →
      s.update_direction.direction = s.direction) ∧
    ((s.direction.1 + d.1, s.direction.2 + d.2) ≠ ((0 : Int), (0 : Int)) →
      s.update_direction.direction = d) ∧
    s.update_direction.next_direction = none := by
  have he : s.update_direction =
      if (s.direction.1 + d.1, s.direction.2 + d.2) ≠ ((0 : Int), (0 : Int)) then
        { s with direction := d, next_direction := none }
      else { s with next_direction := none } := by
    unfold Snake.update_direction
    rw [h]
  rw [he]
  by_cases hz : (s.direction.1 + d.1, s.direction.2 + d.2) = ((0 : Int), (0 : Int))
  · rw [if_neg (not_not_intro hz)]
    exact ⟨fun _ => rfl, fun hnz => absurd hz hnz, rfl⟩
  · rw [if_pos hz]
    exact ⟨fun hzz => absurd hzz hz, fun _ => rfl, rfl⟩

/-- A snake with a pending (perpendicular) direction request. -/
def snakeC3 : Snake := { Snake.init with next_direction := some UP }

/-- Witness for C3, at a snake heading right with a pending `UP` request. -/
theorem C3_update_direction_witness :
    ((snakeC3.direction.1 + UP.1, snakeC3.direction.2 + UP.2) = ((0 : Int), (0 : Int)) →
      snakeC3.update_direction.direction = snakeC3.direction) ∧
    ((snakeC3.direction.1 + UP.1, snakeC3.direction.2 + UP.2) ≠ ((0 : Int), (0 : Int)) →
      snakeC3.update_direction.direction = UP) ∧
    snakeC3.update_direction.next_direction = none :=
  C3_update_direction snakeC3 UP rfl

/-- Claim C4, counterexample: at tick T (`trace3a` → `trace4a`) the snake eats
an apple, so the target length is incremented (4 → 5); but at tick T+1 the
snake curls into its own body, `move` resets, and `len(positions)` drops
from 4 to 1 instead of strictly increasing by exactly 1. -/
theorem C4_counterexample :
    Reachable trace3a ∧ tickAte trace3a (some Key.left) [0, 0] ∧
      trace4a.snake.positions.length = 4 ∧
      (tick trace4a (some Key.down) [0]).1.snake.positions.length = 1 :=
  ⟨trace3a_reachable, by decide, by decide, by decide⟩

/-- Claim C4 (amended): if the target length was incremented by apple
consumption at tick T then, provided `move` at tick T+1 does not detect a
self-collision, `len(positions)` strictly increases by exactly 1 during tick
T+1; and once caught up (`len(positions) = length`), it remains equal to
`length` on every tick that neither grows nor resets. -/
theorem C4_growth_law :
    (∀ g : GameState, Reachable g → ∀ (k : Option Key) (r : Rng), tickAte g k r →
      ∀ (k' : Option Key) (r' : Rng), ¬ tickCollided (tick g k r).1 k' r' →
        (tick (tick g k r).1 k' r').1.snake.positions.length =
          (tick g k r).1.snake.positions.length + 1) ∧
    (∀ g : GameState, Reachable g → g.snake.positions.length = g.snake.length →
      ∀ (k : Option Key) (r : Rng), ¬ tickAte g k r → ¬ tickCollided g k r →
        (tick g k r).1.snake.positions.length = (tick g k r).1.snake.length) := by
  constructor
  · intro g hg k r hate k' r' hnc
    have hinv := reachable_inv g hg
    exact tick_len_growth (tick g k r).1 k' r' (inv_tick g k r hinv)
      (tick_len_of_ate g k r hinv hate) hnc
  · intro g hg _ k r hnate _
    exact tick_len_of_not_ate g k r (reachable_inv g hg) hnate

/-- Witness for C4 (amended): the growth tick `trace0` → `trace1` is followed
by a tick growing the body from 1 to 2 cells, and a quiet tick from `traceX`
keeps `len(positions) = length`. -/
theorem C4_growth_law_witness :
    (tick (tick trace0 none [18, 12]).1 none [0]).1.snake.positions.length =
      (tick trace0 none [18, 12]).1.snake.positions.length + 1 ∧
    (tick traceX none []).1.snake.positions.length =
      (tick traceX none []).1.snake.length :=
  ⟨C4_growth_law.1 trace0 trace0_reachable none [18, 12] (by decide) none [0] (by decide),
   C4_growth_law.2 traceX traceX_reachable (by decide) none [] (by decide) (by decide)⟩

/-- Claim C5: in every reachable state, after the driver's direction commit
(which rejects 180° reversals), the new head computed in `move` differs from
`positions[0]` (the head) and — whenever a neck exists — from `positions[1]`
(the neck); hence the `positions[2:]` collision test misses no collision
with the first two segments. -/
theorem C5_no_first_two_collision (g : GameState) (hg : Reachable g) (k : Option Key) :
    (tickCommit g k).new_head ≠ (tickCommit g k).get_head_position ∧
    (2 ≤ (tickCommit g k).positions.length →
      (tickCommit g k).new_head ≠ (tickCommit g k).positions.getD 1 (0, 0)) := by
  have hinv := reachable_inv g hg
  obtain ⟨hpos, _, _, _, _, _, hdir⟩ := tickCommit_spec g k hinv.next_none
  have hd2 := tickCommit_dir_card g k hinv
  have hsum : (g.snake.direction.1 + (tickCommit g k).direction.1,
      g.snake.direction.2 + (tickCommit g k).direction.2) ≠ ((0 : Int), (0 : Int)) := by
    rcases hdir with h | ⟨_, h⟩
    · rw [h]
      exact cardinal_sum_self_ne g.snake.direction hinv.dir_card
    · exact h
  constructor
  · exact wrapAdd_ne_self (tickCommit g k).get_head_position (tickCommit g k).direction hd2
  · intro h2
    rw [hpos] at h2
    obtain ⟨p, q, t, hps⟩ : ∃ p q t, g.snake.positions = p :: q :: t := by
      cases hy : g.snake.positions with
      | nil =>
        rw [hy] at h2
        simp at h2
      | cons a u =>
        cases hu : u with
        | nil =>
          rw [hy, hu] at h2
          simp at h2
        | cons b v => exact ⟨a, b, v, rfl⟩
    have hneck : p = wrapAdd q g.snake.direction := by
      have := hinv.neck (by rw [hps]; simp)
      rw [hps] at this
      exact this
    have hq_range : inRange q := hinv.ranged q (by rw [hps]; simp)
    show wrapAdd ((tickCommit g k).positions.headD (0, 0)) (tickCommit g k).direction ≠
      (tickCommit g k).positions.getD 1 (0, 0)
    rw [hpos, hps, List.headD_cons]
    show wrapAdd p (tickCommit g k).direction ≠ q
    rw [hneck]
    exact wrapAdd_wrapAdd_ne q g.snake.direction (tickCommit g k).direction
      hinv.dir_card hd2 hsum hq_range

/-- Witness for C5, at the reachable two-cell state `trace2` (where the neck
clause is not vacuous) with a pending `UP` request. -/
theorem C5_no_first_two_collision_witness :
    (tickCommit trace2 (some Key.up)).new_head ≠
      (tickCommit trace2 (some Key.up)).get_head_position ∧
    (2 ≤ (tickCommit trace2 (some Key.up)).positions.length →
      (tickCommit trace2 (some Key.up)).new_head ≠
        (tickCommit trace2 (some Key.up)).positions.getD 1 (0, 0)) :=
  C5_no_first_two_collision trace2 trace2_reachable (some Key.up)

/-- Claim C6, counterexample: the reachable tick `trace0` → `trace1` neither
collides nor resets (the snake simply eats the apple at `(340, 240)`), yet
at the tick boundary `len(positions) = 1` while `length = 2` — so
`len(positions) == length` fails at a boundary although the snake has not
just reset. -/
theorem C6_counterexample :
    Reachable trace0 ∧ ¬ tickCollided trace0 none [18, 12] ∧
      trace1.snake.positions.length = 1 ∧ trace1.snake.length = 2 :=
  ⟨trace0_reachable, by decide, by decide, by decide⟩

/-- Claim C6 (amended): at a tick boundary of a reachable state,
`len(positions) == length` holds whenever the tick did not consume an apple
(this includes reset ticks); a tick that consumed an apple instead leaves
`len(positions) + 1 == length` — the deficit absorbed one tick later.  The
inequality may still fail transiently inside `move`. -/
theorem C6_boundary_length (g : GameState) (hg : Reachable g) (k : Option Key) (r : Rng) :
    (¬ tickAte g k r →
      (tick g k r).1.snake.positions.length = (tick g k r).1.snake.length) ∧
    (tickAte g k r →
      (tick g k r).1.snake.positions.length + 1 = (tick g k r).1.snake.length) :=
  ⟨tick_len_of_not_ate g k r (reachable_inv g hg),
   tick_len_of_ate g k r (reachable_inv g hg)⟩

/-- Witness for C6 (amended): a quiet tick from `traceX` keeps
`len(positions) = length`, and the apple tick from `trace0` leaves the body
one cell short of the target. -/
theorem C6_boundary_length_witness :
    (tick traceX none []).1.snake.positions.length = (tick traceX none []).1.snake.length ∧
    (tick trace0 none [18, 12]).1.snake.positions.length + 1 =
      (tick trace0 none [18, 12]).1.snake.length :=
  ⟨(C6_boundary_length traceX traceX_reachable none []).1 (by decide),
   (C6_boundary_length trace0 trace0_reachable none [18, 12]).2 (by decide)⟩

/-- Claim C7, counterexample: in the reachable state `trace4b` the apple sits
at the board center; the next tick's `move` detects a self-collision and
resets, after which the head (now at the center) equals the apple — the
growth trigger fires in that very tick, leaving the target length at 2. -/
theorem C7_counterexample :
    Reachable trace4b ∧ tickCollided trace4b (some Key.down) [0, 0] ∧
      tickAte trace4b (some Key.down) [0, 0] ∧
      (tick trace4b (some Key.down) [0, 0]).1.snake.length = 2 :=
  ⟨trace4b_reachable, by decide, by decide, by decide⟩

/-- Claim C7 (amended): the driver's growth trigger is not guarded by a
normal return of `move`: it fires in exactly the ticks whose post-move head
equals the apple position.  In a collision (reset) tick the target length
therefore ends at 2 when the apple is at the post-reset head (the board
center), and at 1 otherwise. -/
theorem C7_growth_after_reset (g : GameState) (k : Option Key) (r : Rng)
    (hc : tickCollided g k r) :
    (tickAte g k r → (tick g k r).1.snake.length = 2) ∧
    (¬ tickAte g k r → (tick g k r).1.snake.length = 1) := by
  have hl : (tickMove g k r).1.length = 1 := by
    show ((tickCommit g k).move r).1.length = 1
    rw [move_fst_collides (tickCommit g k) r hc]
  constructor
  · intro hate
    have hate' : (tickMove g k r).1.get_head_position = g.apple.position := hate
    unfold tick
    rw [if_pos hate']
    show (tickMove g k r).1.length + 1 = 2
    omega
  · intro hnate
    have hnate' : ¬ (tickMove g k r).1.get_head_position = g.apple.position := hnate
    unfold tick
    rw [if_neg hnate']
    exact hl

/-- Witness for C7 (amended): the collision tick out of `trace4b` (apple at
the center) ends with target length 2, while the collision tick out of
`trace4a` (apple at `(0, 0)`) ends with target length 1. -/
theorem C7_growth_after_reset_witness :
    (tick trace4b (some Key.down) [0, 0]).1.snake.length = 2 ∧
    (tick trace4a (some Key.down) [0]).1.snake.length = 1 :=
  ⟨(C7_growth_after_reset trace4b (some Key.down) [0, 0] (by decide)).1 (by decide),
   (C7_growth_after_reset trace4a (some Key.down) [0] (by decide)).2 (by decide)⟩

/-- Claim C8, counterexample: from the reachable state `trace0` the snake's
head lands on the apple at `(340, 240)` and the growth trigger fires, but
the randomness re-draws the very same grid cell, so the apple's position
does not differ from its value before the trigger. -/
theorem C8_counterexample :
    Reachable trace0 ∧ tickAte trace0 none [17, 12] ∧
      (tick trace0 none [17, 12]).1.apple.position = trace0.apple.position :=
  ⟨trace0_reachable, by decide, by decide⟩

/-- Claim C8 (amended): when the driver's check finds the apple at the
snake's head, the target length increases by exactly 1 and the apple is
re-drawn to a grid-aligned position inside the board — which may coincide
with its prior value (the draw avoids neither the snake nor the old
apple cell). -/
theorem C8_growth_trigger (g : GameState) (k : Option Key) (r : Rng)
    (hate : tickAte g k r) :
    (tick g k r).1.snake.length = (tickMove g k r).1.length + 1 ∧
    (tick g k r).1.apple.position.1 % GRID_SIZE = 0 ∧
    (tick g k r).1.apple.position.2 % GRID_SIZE = 0 ∧
    0 ≤ (tick g k r).1.apple.position.1 ∧
    (tick g k r).1.apple.position.1 < SCREEN_WIDTH ∧
    0 ≤ (tick g k r).1.apple.position.2 ∧
    (tick g k r).1.apple.position.2 < SCREEN_HEIGHT := by
  have hate' : (tickMove g k r).1.get_head_position = g.apple.position := hate
  unfold tick
  rw [if_pos hate']
  exact ⟨rfl, randomize_position_spec g.apple (tickMove g k r).2⟩

/-- Witness for C8 (amended), at the apple tick out of `trace0`. -/
theorem C8_growth_trigger_witness :
    (tick trace0 none [17, 12]).1.snake.length =
      (tickMove trace0 none [17, 12]).1.length + 1 ∧
    (tick trace0 none [17, 12]).1.apple.position.1 % GRID_SIZE = 0 ∧
    (tick trace0 none [17, 12]).1.apple.position.2 % GRID_SIZE = 0 ∧
    0 ≤ (tick trace0 none [17, 12]).1.apple.position.1 ∧
    (tick trace0 none [17, 12]).1.apple.position.1 < SCREEN_WIDTH ∧
    0 ≤ (tick trace0 none [17, 12]).1.apple.position.2 ∧
    (tick trace0 none [17, 12]).1.apple.position.2 < SCREEN_HEIGHT :=
  C8_growth_trigger trace0 none [17, 12] (by decide)

/-- Claim C9: for every invocation of `randomize_position` and every value
drawn from the randomness source, the resulting apple position is
grid-aligned on both axes and lies inside `[0, SCREEN_WIDTH) ×
[0, SCREEN_HEIGHT)`. -/
theorem C9_randomize_position (a : Apple) (r : Rng) :
    (a.randomize_position r).1.position.1 % GRID_SIZE = 0 ∧
    (a.randomize_position r).1.position.2 % GRID_SIZE = 0 ∧
    0 ≤ (a.randomize_position r).1.position.1 ∧
    (a.randomize_position r).1.position.1 < SCREEN_WIDTH ∧
    0 ≤ (a.randomize_position r).1.position.2 ∧
    (a.randomize_position r).1.position.2 < SCREEN_HEIGHT :=
  randomize_position_spec a r

/-- Claim C10: when `move` does not detect a self-collision, it modifies only
the body list and the `last` bookkeeping field — `direction`,
`next_direction`, `length`, `position` and `body_color` are unchanged. -/
theorem C10_move_frame (s : Snake) (r : Rng) (hc : ¬ s.collides) :
    (s.move r).1.direction = s.direction ∧
    (s.move r).1.next_direction = s.next_direction ∧
    (s.move r).1.length = s.length ∧
    (s.move r).1.position = s.position ∧
    (s.move r).1.body_color = s.body_color := by
  by_cases hpop : (s.new_head :: s.positions).length > s.length
  · rw [move_fst_pop s r hc hpop]
    exact ⟨rfl, rfl, rfl, rfl, rfl⟩
  · rw [move_fst_nopop s r hc hpop]
    exact ⟨rfl, rfl, rfl, rfl, rfl⟩

/-- Witness for C10, at the freshly initialized snake. -/
theorem C10_move_frame_witness :
    (Snake.init.move []).1.direction = Snake.init.direction ∧
    (Snake.init.move []).1.next_direction = Snake.init.next_direction ∧
    (Snake.init.move []).1.length = Snake.init.length ∧
    (Snake.init.move []).1.position = Snake.init.position ∧
    (Snake.init.move []).1.body_color = Snake.init.body_color :=
  C10_move_frame Snake.init [] (by decide)

end TheSnake
